import Mathlib

/-!
Verification of the query-understanding and multi-signal ranking engine of
the ai-video-searcher repository, shallowly embedded in Lean 4.

Sources embedded:
- app/application/search/query_parser.py
- app/application/search/color_score.py
- app/application/search/search_service.py
- app/application/video/plate_ocr.py (normalize_plate_text)

Modelling conventions:
- Python floats are modelled by exact rationals (ℚ).  `math.sqrt` is modelled
  by `ratSqrt`, the exact rational square root on perfect-square rationals
  (and 0 elsewhere); every concrete input used below has a perfect-square
  radicand, where the model agrees with real square root semantics.
- Python strings are modelled by `String`/`List Char`.  Lower/upper casing and
  character classes are modelled for the ASCII and Cyrillic alphabets, the
  alphabets the source's keyword tables and plate pattern use.
- The external collaborators (database fetch, text embedder, the rapidfuzz
  `fuzz.ratio` function) are inputs of the embedded functions: candidate
  lists, the query vector and a `fuzz : String → String → ℚ` parameter.
- `list.sort` (Timsort, stable) is modelled by a stable insertion sort: a
  stable sort's output is uniquely determined by the comparator, so the two
  agree extensionally.
- The unbounded `while current_final_min >= 0` relaxation loop is modelled by
  a structurally recursive function on a fuel counter chosen large enough
  (`⌊finalMin·10⌋ + 2`) that the fuel can never run out before the loop's own
  exit condition `current < 0` fires: the loop decrements `current` by 1/10
  each step, so at most `⌊(finalMin − 1/10)·10⌋ + 2` iterations can occur.
-/

/-! ## Character helpers (ASCII + Cyrillic fragments of Python semantics) -/

/-- Whitespace characters recognised by Python's `str.split()` / `\s` for the
inputs considered here. -/
def isSpaceChar (c : Char) : Bool :=
  c = ' ' || c = '\t' || c = '\n' || c = '\r' || c = '\x0b' || c = '\x0c'

/-- Lower-casing a character, Python `str.lower` restricted to ASCII and
Cyrillic (А..Я → а..я, Ё → ё). -/
def lowerChar (c : Char) : Char :=
  if 'A' ≤ c && c ≤ 'Z' then Char.ofNat (c.toNat + 32)
  else if 'А' ≤ c && c ≤ 'Я' then Char.ofNat (c.toNat + 32)
  else if c = 'Ё' then 'ё'
  else c

/-- Upper-casing a character, Python `str.upper` restricted to ASCII and
Cyrillic (а..я → А..Я, ё → Ё). -/
def upperChar (c : Char) : Char :=
  if 'a' ≤ c && c ≤ 'z' then Char.ofNat (c.toNat - 32)
  else if 'а' ≤ c && c ≤ 'я' then Char.ofNat (c.toNat - 32)
  else if c = 'ё' then 'Ё'
  else c

/-- ASCII digit test (Python `\d` and `str.isdigit` on the inputs used). -/
def isDigitCh (c : Char) : Bool := '0' ≤ c && c ≤ '9'

/-- Letters matched by the plate pattern's `[A-ZА-Я]` classes under
`re.IGNORECASE`: both cases of the Latin A–Z and Cyrillic А–Я ranges
(Ё/ё are not case variants of that range and are excluded, as in Python). -/
def isPlateLetter (c : Char) : Bool :=
  ('A' ≤ c && c ≤ 'Z') || ('a' ≤ c && c ≤ 'z') ||
  ('А' ≤ c && c ≤ 'Я') || ('а' ≤ c && c ≤ 'я')

/-- Word characters for the `\b` boundary of Python's `re` (unicode mode),
restricted to ASCII alphanumerics, underscore and Cyrillic letters. -/
def isWordCh (c : Char) : Bool :=
  isDigitCh c || c = '_' ||
  ('A' ≤ c && c ≤ 'Z') || ('a' ≤ c && c ≤ 'z') ||
  ('А' ≤ c && c ≤ 'я') || c = 'Ё' || c = 'ё'

/-! ## List-of-characters helpers -/

/-- Strip characters satisfying `p` from both ends (Python `str.strip`). -/
def stripEnds (p : Char → Bool) (cs : List Char) : List Char :=
  ((cs.dropWhile p).reverse.dropWhile p).reverse

/-- Strip whitespace from both ends (Python `str.strip()`). -/
def stripWsList (cs : List Char) : List Char := stripEnds isSpaceChar cs

/-- Punctuation set of `token.strip(",.!?;:")` in the parser. -/
def isPunctCh (c : Char) : Bool :=
  c = ',' || c = '.' || c = '!' || c = '?' || c = ';' || c = ':'

/-- Strip the parser's punctuation set from both ends of a token. -/
def stripPunct (cs : List Char) : List Char := stripEnds isPunctCh cs

/-- Collapse every whitespace run to a single space,
Python `re.sub(r"\s+", " ", ·)`.  The Boolean records whether the previous
character was part of a whitespace run. -/
def collapseWsAux : Bool → List Char → List Char
  | _, [] => []
  | prevSpace, c :: rest =>
    if isSpaceChar c then
      if prevSpace then collapseWsAux true rest
      else ' ' :: collapseWsAux true rest
    else c :: collapseWsAux false rest

/-- Whitespace-collapsing entry point. -/
def collapseWs (cs : List Char) : List Char := collapseWsAux false cs

/-- Accumulator-based whitespace tokenizer, Python `str.split()`:
splits on whitespace runs and produces no empty tokens. -/
def splitWsAux : List Char → List Char → List (List Char)
  | [], acc => if acc.isEmpty then [] else [acc.reverse]
  | c :: rest, acc =>
    if isSpaceChar c then
      if acc.isEmpty then splitWsAux rest [] else acc.reverse :: splitWsAux rest []
    else splitWsAux rest (c :: acc)

/-- Tokenize on whitespace (Python `str.split()`). -/
def splitWs (cs : List Char) : List (List Char) := splitWsAux cs []

/-- Substring containment, Python's `needle in hay` for strings. -/
def hasSubstr (needle : List Char) : List Char → Bool
  | [] => needle.isEmpty
  | c :: rest => needle.isPrefixOf (c :: rest) || hasSubstr needle rest

/-- Split on a literal comma keeping empty fields, Python `str.split(",")`. -/
def splitCommaAux : List Char → List Char → List (List Char)
  | [], acc => [acc.reverse]
  | c :: rest, acc =>
    if c = ',' then acc.reverse :: splitCommaAux rest []
    else splitCommaAux rest (c :: acc)

/-- Comma-splitting entry point. -/
def splitComma (cs : List Char) : List (List Char) := splitCommaAux cs []

/-- Numeric value of a digit string. -/
def natOfDigits (cs : List Char) : ℚ :=
  cs.foldl (fun acc c => acc * 10 + ((c.toNat - 48 : Nat) : ℚ)) 0

/-- Decimal parser modelling Python `float(...)` on the plain decimal subset
(optional sign, digits, optional fractional part) used by the stored HSV
attribute encoding.  Returns `none` where `float` would raise. -/
def parseDecimal (cs : List Char) : Option ℚ :=
  let signAndRest : ℚ × List Char :=
    match cs with
    | c :: r => if c = '-' then (-1, r) else if c = '+' then (1, r) else (1, cs)
    | [] => (1, [])
  let sign := signAndRest.1
  let rest := signAndRest.2
  let ip := rest.takeWhile isDigitCh
  let rest2 := rest.dropWhile isDigitCh
  match rest2 with
  | [] => if ip.isEmpty then none else some (sign * natOfDigits ip)
  | '.' :: fp =>
    if fp.all isDigitCh && !(ip.isEmpty && fp.isEmpty) then
      some (sign * (natOfDigits ip + natOfDigits fp / (10 : ℚ) ^ fp.length))
    else none
  | _ => none

/-! ## Query parser data model (query_parser.py) -/

/-- Python `QueryObjectType` enumeration. -/
inductive QueryObjectType where
  | PERSON
  | TRANSPORT
deriving DecidableEq, Repr

/-- Result of parsing a user query, Python dataclass `ParsedQuery`. -/
structure ParsedQuery where
  type : Option QueryObjectType
  color : Option String
  upper_color : Option String
  lower_color : Option String
  plate : Option String
  cleaned_text : String
deriving DecidableEq, Repr

/-- Keyword table `_PERSON_KEYWORDS`. -/
def personKeywords : List String :=
  [ "person", "people", "human", "man", "woman", "boy", "girl",
    "человек", "человека", "мужчина", "женщина", "парень", "девушка",
    "пешеход" ]

/-- Keyword table `_TRANSPORT_KEYWORDS`. -/
def transportKeywords : List String :=
  [ "car", "cars", "auto", "vehicle", "truck", "bus",
    "машина", "авто", "тачка", "грузовик", "автобус", "легковая", "фура",
    "микроавтобус", "транспорт" ]

/-- Keyword table `_UPPER_CLOTHES_KEYWORDS`. -/
def upperClothesKeywords : List String :=
  [ "куртк", "футболк", "кофт", "пиджак", "пальт", "жилет", "худи",
    "толстовк", "свитер", "верх" ]

/-- Keyword table `_LOWER_CLOTHES_KEYWORDS`. -/
def lowerClothesKeywords : List String :=
  [ "штон", "штам", "штан", "штаны", "джинс", "брюк", "юбк", "шорт", "низ" ]

/-- Color table `_COLOR_PATTERNS`, in source (insertion) order. -/
def colorPatterns : List (String × List String) :=
  [ ("black", [ "черн", "black", "чёрн" ]),
    ("white", [ "бел", "white" ]),
    ("gray", [ "сер", "grey", "gray" ]),
    ("red", [ "красн", "red", "бордов" ]),
    ("orange", [ "оранжев", "orange" ]),
    ("yellow", [ "желт", "yellow" ]),
    ("green", [ "зелен", "зелён", "green" ]),
    ("blue", [ "син", "голуб", "blue" ]),
    ("brown", [ "коричнев", "brown" ]),
    ("purple", [ "фиолет", "purple", "пурпур" ]),
    ("pink", [ "розов", "pink" ]) ]

/-- Normalization `_normalize_text`: strip, lowercase, collapse whitespace
runs to single spaces. -/
def normalizeChars (cs : List Char) : List Char :=
  collapseWs ((stripWsList cs).map lowerChar)

/-! ## Plate pattern (`_PLATE_REGEX` with `re.IGNORECASE`)

The pattern is `\b([A-ZА-Я])[ -]?(\d{3})[ -]?([A-ZА-Я]{2})[ -]?(\d{2,3})\b`.
Each `[ -]?` is deterministic here (if the optional char is present the
following class cannot match it), and `(\d{2,3})\b` is greedy with one
backtracking alternative, so a direct functional matcher is faithful. -/

/-- Consume one optional separator from the class `[ -]`. -/
def takeSep : List Char → Nat × List Char
  | [] => (0, [])
  | c :: rest => if c = ' ' || c = '-' then (1, rest) else (0, c :: rest)

/-- Consume exactly `n` characters satisfying `p`, returning them and the
rest. -/
def takeClassN (p : Char → Bool) : Nat → List Char → Option (List Char × List Char)
  | 0, cs => some ([], cs)
  | _ + 1, [] => none
  | n + 1, c :: rest =>
    if p c then (takeClassN p n rest).map (fun pr => (c :: pr.1, pr.2)) else none

/-- Word-boundary test after the match (`\b` with a word character to the
left): succeeds at end of input or before a non-word character. -/
def boundaryAfter : List Char → Bool
  | [] => true
  | c :: _ => !isWordCh c

/-- Try to match the plate pattern (minus the leading `\b`) at the head of
the input.  Returns the consumed length and the concatenated group
characters. -/
def matchPlateAt (cs : List Char) : Option (Nat × List Char) :=
  match cs with
  | [] => none
  | c₁ :: r₁ =>
    if isPlateLetter c₁ then
      let s₁ := takeSep r₁
      match takeClassN isDigitCh 3 s₁.2 with
      | none => none
      | some (d₃, r₃) =>
        let s₂ := takeSep r₃
        match takeClassN isPlateLetter 2 s₂.2 with
        | none => none
        | some (l₂, r₅) =>
          let s₃ := takeSep r₅
          let base := 1 + s₁.1 + 3 + s₂.1 + 2 + s₃.1
          let groups := c₁ :: (d₃ ++ l₂)
          let try₂ : Option (Nat × List Char) :=
            match takeClassN isDigitCh 2 s₃.2 with
            | some (g₂, r₈) =>
              if boundaryAfter r₈ then some (base + 2, groups ++ g₂) else none
            | none => none
          match takeClassN isDigitCh 3 s₃.2 with
          | some (g₃, r₇) =>
            if boundaryAfter r₇ then some (base + 3, groups ++ g₃) else try₂
          | none => try₂
    else none

/-- Word-boundary test before a match start. -/
def boundaryBefore : Option Char → Bool
  | none => true
  | some p => !isWordCh p

/-- Leftmost search for the plate pattern (`re.search`), carrying the
previous character for the `\b` test and the current index. -/
def plateSearchAux : Option Char → Nat → List Char → Option (Nat × Nat × List Char)
  | _, _, [] => none
  | prev, i, c :: rest =>
    match (if boundaryBefore prev then matchPlateAt (c :: rest) else none) with
    | some (len, groups) => some (i, len, groups)
    | none => plateSearchAux (some c) (i + 1) rest

/-- Group normalization of `_extract_plate`: uppercase and fold Ё to Е. -/
def normalizePlateGroups (groups : List Char) : List Char :=
  (groups.map upperChar).map (fun c => if c = 'Ё' then 'Е' else c)

/-- Function `_extract_plate`: find the plate, return the normalized plate
and the text with the matched span cut out and stripped. -/
def extractPlate (cs : List Char) : Option (List Char) × List Char :=
  match plateSearchAux none 0 cs with
  | none => (none, cs)
  | some (start, len, groups) =>
    (some (normalizePlateGroups groups),
     stripWsList (cs.take start ++ cs.drop (start + len)))

/-! ## Type and color detection -/

/-- Function `_count_keyword_hits`: number of keywords occurring as
substrings. -/
def countKeywordHits (text : List Char) (keywords : List String) : Nat :=
  keywords.countP (fun k => hasSubstr k.data text)

/-- Function `_detect_type`. -/
def detectType (text : List Char) : Option QueryObjectType :=
  let personScore := countKeywordHits text personKeywords
  let transportScore := countKeywordHits text transportKeywords
  if personScore = 0 && transportScore = 0 then none
  else if personScore > transportScore then some QueryObjectType.PERSON
  else if transportScore > personScore then some QueryObjectType.TRANSPORT
  else none

/-- Function `_match_color`: first color family one of whose pattern stems
occurs in the token. -/
def matchColor (token : List Char) : Option String :=
  go colorPatterns
where
  go : List (String × List String) → Option String
    | [] => none
    | (name, pats) :: rest =>
      if pats.any (fun p => hasSubstr p.data token) then some name else go rest

/-- Function `_detect_colors_with_tokens`: tokens plus the
`(token index, color)` matches in order. -/
def detectColorsWithTokens (text : List Char) :
    List (Nat × String) × List (List Char) :=
  let tokens := splitWs text
  (tokens.enum.filterMap
     (fun it => (matchColor (stripPunct it.2)).map (fun c => (it.1, c))),
   tokens)

/-- Function `_token_matches_any`. -/
def tokenMatchesAny (token : List Char) (patterns : List String) : Bool :=
  patterns.any (fun p => hasSubstr p.data token)

/-- Distance between two token indices. -/
def natDist (a b : Nat) : Nat := max a b - min a b

/-- Function `_closest_color_for_index` (with the default
`max_distance = 3`): the color whose token index is nearest, searched with a
strictly-improving fold exactly as the source loop does. -/
def closestColorForIndex (colors : List (Nat × String)) (index : Nat) :
    Option String :=
  go colors none 4
where
  go : List (Nat × String) → Option (Nat × String) → Nat → Option String
    | [], best, _ => best.map (fun b => b.2)
    | (cIdx, cName) :: rest, best, bestDist =>
      let d := natDist cIdx index
      if d ≤ 3 && d < bestDist then go rest (some (cIdx, cName)) d
      else go rest best bestDist

/-- Loop body of `_split_colors_by_clothes`: walk the tokens accumulating
the first upper and lower garment color assignments. -/
def clothesLoop (colors : List (Nat × String)) :
    List (Nat × List Char) → Option String → Option String →
    Option String × Option String
  | [], u, l => (u, l)
  | (idx, tok) :: rest, u, l =>
    let tc := stripPunct tok
    let u' :=
      if tokenMatchesAny tc upperClothesKeywords then
        match closestColorForIndex colors idx with
        | some c => if u = none then some c else u
        | none => u
      else u
    let l' :=
      if tokenMatchesAny tc lowerClothesKeywords then
        match closestColorForIndex colors idx with
        | some c => if l = none then some c else l
        | none => l
      else l
    clothesLoop colors rest u' l'

/-- Function `_split_colors_by_clothes`: returns
`(upper_color, lower_color, generic_color)`. -/
def splitColorsByClothes (colors : List (Nat × String))
    (tokens : List (List Char)) (objType : Option QueryObjectType) :
    Option String × Option String × Option String :=
  if objType ≠ some QueryObjectType.PERSON || colors.isEmpty then
    (none, none, colors.head?.map (fun c => c.2))
  else
    let ul := clothesLoop colors tokens.enum none none
    if ul.1 = none && ul.2 = none then (none, none, colors.head?.map (fun c => c.2))
    else (ul.1, ul.2, none)

/-- Main entry `parse_query`.  Note that type detection and color detection
run on the normalized text with the plate still present (`normalized_text`),
while `cleaned_text` uses the plate-stripped text. -/
def parseQuery (text : String) : ParsedQuery :=
  let n := normalizeChars text.data
  let pr := extractPlate n
  let ty := detectType n
  let ct := detectColorsWithTokens n
  let ull := splitColorsByClothes ct.1 ct.2 ty
  { type := ty
    color := if ull.1.isSome || ull.2.1.isSome then none else ull.2.2
    upper_color := ull.1
    lower_color := ull.2.1
    plate := pr.1.map (fun cs => String.mk cs)
    cleaned_text := String.mk (stripWsList pr.2) }

/-- Variant of `parseQuery` following the specification's words for its
step 4: color detection (and the token list used for color-to-region
assignment) operates on the plate-stripped text rather than on the full
normalized text.  Used only to compare the source behaviour against the
specified one. -/
def parseQueryPlateStripped (text : String) : ParsedQuery :=
  let n := normalizeChars text.data
  let pr := extractPlate n
  let ty := detectType n
  let ct := detectColorsWithTokens pr.2
  let ull := splitColorsByClothes ct.1 ct.2 ty
  { type := ty
    color := if ull.1.isSome || ull.2.1.isSome then none else ull.2.2
    upper_color := ull.1
    lower_color := ull.2.1
    plate := pr.1.map (fun cs => String.mk cs)
    cleaned_text := String.mk (stripWsList pr.2) }

/-! ## Color scoring (color_score.py) -/

/-- Set `_SUPPORTED_COLORS`. -/
def supportedColors : List String :=
  [ "red", "green", "blue", "yellow", "orange", "purple", "brown",
    "white", "gray", "black" ]

/-- Reference hue table `_HUE_REF` (a total function; it is only ever
consulted at the seven chromatic color names, exactly as the source dict). -/
def hueRef (color : String) : ℚ :=
  if color = "red" then 0
  else if color = "orange" then 30
  else if color = "yellow" then 55
  else if color = "green" then 120
  else if color = "blue" then 220
  else if color = "purple" then 275
  else if color = "brown" then 25
  else 0

/-- Function `_clamp`. -/
def clamp (value minValue maxValue : ℚ) : ℚ :=
  if value < minValue then minValue
  else if value > maxValue then maxValue
  else value

/-- Function `_circular_hue_distance`. -/
def circularHueDistance (h refH : ℚ) : ℚ :=
  let dRaw := |h - refH|
  min dRaw (360 - dRaw)

/-- Function `_hue_score`. -/
def hueScore (dH : ℚ) : ℚ :=
  if dH ≥ 40 then 0 else 1 - dH / 40

/-- Function `_chromatic_s_score`. -/
def chromaticSScore (s : ℚ) : ℚ :=
  if s ≤ 5/100 then 0
  else if s ≥ 1/2 then 1
  else (s - 5/100) / (1/2 - 5/100)

/-- Function `_chromatic_v_score`. -/
def chromaticVScore (v : ℚ) : ℚ :=
  if v ≤ 1/10 then 4/10
  else if v ≤ 4/10 then 4/10 + (v - 1/10) * (1 - 4/10) / (4/10 - 1/10)
  else if v ≤ 8/10 then 1
  else if v ≤ 95/100 then 1 - (v - 8/10) * (1 - 1/2) / (95/100 - 8/10)
  else 1/2

/-- Function `_brown_v_score`. -/
def brownVScore (v : ℚ) : ℚ :=
  if v ≤ 1/10 || v ≥ 8/10 then 0
  else if v ≤ 4/10 then (v - 1/10) / (4/10 - 1/10)
  else (8/10 - v) / (8/10 - 4/10)

/-- Function `_brown_s_score`. -/
def brownSScore (s : ℚ) : ℚ :=
  if s ≤ 3/10 then 0
  else if s ≥ 8/10 then 1
  else (s - 3/10) / (8/10 - 3/10)

/-- Function `_score_chromatic`. -/
def scoreChromatic (color : String) (h s v : ℚ) : ℚ :=
  let refH := hueRef color
  let dH := circularHueDistance h refH
  let hueComponent := hueScore dH
  let score :=
    if color = "brown" then
      hueComponent * brownSScore s * brownVScore v
    else
      hueComponent * ((chromaticSScore s + chromaticVScore v) / 2)
  clamp score 0 1

/-- Function `_white_score`. -/
def whiteScore (s v : ℚ) : ℚ :=
  let sComponent :=
    if s ≤ 1/10 then 1
    else if s ≥ 4/10 then 0
    else 1 - (s - 1/10) / (4/10 - 1/10)
  let vComponent :=
    if v ≤ 4/10 then 0
    else if v ≥ 7/10 then 1
    else (v - 4/10) / (7/10 - 4/10)
  clamp (sComponent * vComponent) 0 1

/-- Function `_gray_score`. -/
def grayScore (s v : ℚ) : ℚ :=
  let sComponent :=
    if s ≤ 0 then 1
    else if s ≥ 4/10 then 0
    else 1 - s / (4/10)
  let vComponent :=
    if v ≤ 2/10 || v ≥ 9/10 then 0
    else if v ≤ 1/2 then (v - 2/10) / (1/2 - 2/10)
    else (9/10 - v) / (9/10 - 1/2)
  clamp (sComponent * vComponent) 0 1

/-- Function `_black_score`. -/
def blackScore (v : ℚ) : ℚ :=
  if v ≤ 12/100 then 1
  else if v ≥ 1/2 then 0
  else 1 - (v - 12/100) / (1/2 - 12/100)

/-- Function `_score_achromatic`. -/
def scoreAchromatic (color : String) (s v : ℚ) : ℚ :=
  if color = "white" then whiteScore s v
  else if color = "gray" then grayScore s v
  else if color = "black" then blackScore v
  else 0

/-- Main entry `compute_color_score`. -/
def computeColorScore (queryColor : String) (h s v : ℚ) : ℚ :=
  let color := String.mk ((stripWsList queryColor.data).map lowerChar)
  if color ∉ supportedColors then 0
  else
    let h := clamp h 0 360
    let s := clamp s 0 1
    let v := clamp v 0 1
    if color = "white" || color = "gray" || color = "black" then
      scoreAchromatic color s v
    else
      scoreChromatic color h s v

/-! ## Plate normalization (plate_ocr.py) and plate scoring -/

/-- Allowed characters of a normalized plate, `ALLOWED_PLATE_CHARS`. -/
def allowedPlateChars : List Char := "ABEKMHOPCTYX0123456789".data

/-- Cyrillic-to-Latin look-alike map `RUS_TO_LAT_MAP` (`none` for Cyrillic
letters with no Latin look-alike, which the source skips). -/
def rusToLat (c : Char) : Option Char :=
  if c = 'А' then some 'A'
  else if c = 'В' then some 'B'
  else if c = 'Е' then some 'E'
  else if c = 'К' then some 'K'
  else if c = 'М' then some 'M'
  else if c = 'Н' then some 'H'
  else if c = 'О' then some 'O'
  else if c = 'Р' then some 'P'
  else if c = 'С' then some 'C'
  else if c = 'Т' then some 'T'
  else if c = 'У' then some 'Y'
  else if c = 'Х' then some 'X'
  else none

/-- Per-character pipeline of `normalize_plate_text`'s loop body: skip
whitespace, keep digits, map Cyrillic look-alikes, fix OCR confusions, then
keep only allowed characters. -/
def normPlateChar (c : Char) : Option Char :=
  if isSpaceChar c then none
  else if isDigitCh c then some c
  else
    let mapped :=
      if ('А' ≤ c && c ≤ 'Я') || c = 'Ё' then rusToLat c else some c
    match mapped with
    | none => none
    | some c₂ =>
      let c₃ :=
        if c₂ = 'O' || c₂ = 'Q' then 'O'
        else if c₂ = 'I' || c₂ = 'L' then '1'
        else if c₂ = 'Z' then '2'
        else if c₂ = 'S' then '5'
        else c₂
      if c₃ ∈ allowedPlateChars then some c₃ else none

/-- Function `normalize_plate_text`. -/
def normalizePlateText (text : String) : Option String :=
  if text.isEmpty then none
  else
    let upper := (stripWsList text.data).map upperChar
    let cleaned := upper.filterMap normPlateChar
    if cleaned.isEmpty then none else some (String.mk cleaned)

/-- Python truthiness of an optional string (`None` and `""` are falsy). -/
def optStrTruthy : Option String → Bool
  | none => false
  | some s => !s.isEmpty

/-- Function `_compute_plate_score`.  The external `rapidfuzz.fuzz.ratio`
function is a parameter `fuzz` (its value on two strings, in [0,100] for the
real library). -/
def computePlateScore (fuzz : String → String → ℚ)
    (queryPlate dbPlate : Option String) : ℚ :=
  if !(optStrTruthy queryPlate && optStrTruthy dbPlate) then 0
  else
    match queryPlate, dbPlate with
    | some q, some d =>
      match normalizePlateText q, normalizePlateText d with
      | some qn, some dn =>
        if qn = dn then 1
        else
          let score := fuzz qn dn / 100
          if score < 4/10 then 0 else score
      | _, _ => 0
    | _, _ => 0

/-! ## Vector similarity (search_service.py `_cosine_similarity`) -/

/-- Exact rational square root: the true square root when the argument is a
perfect square of a rational, 0 otherwise.  This models `math.sqrt` exactly
on perfect-square radicands; every concrete radicand in this development is
a perfect square. -/
def ratSqrt (q : ℚ) : ℚ :=
  if Rat.sqrt q * Rat.sqrt q = q then Rat.sqrt q else 0

/-- Function `_cosine_similarity`: length check, dot product and norms
accumulated over `zip a b`, zero-norm guard, and the quotient. -/
def cosineSim (a b : List ℚ) : Except String ℚ :=
  if a.length ≠ b.length then
    Except.error ("Vectors must have the same length")
  else
    let p := a.zip b
    let dot := (p.map (fun q => q.1 * q.2)).sum
    let na := (p.map (fun q => q.1 * q.1)).sum
    let nb := (p.map (fun q => q.2 * q.2)).sum
    if na = 0 ∨ nb = 0 then Except.ok 0
    else Except.ok (dot / ratSqrt (na * nb))

/-! ## Score combination and hits (search_service.py) -/

/-- Function `_combine_scores`: weight table keyed on strict positivity of
the color and plate scores. -/
def combineScores (clipScore colorScore plateScore : ℚ) : ℚ :=
  let hasColor := colorScore > 0
  let hasPlate := plateScore > 0
  let w :=
    if !hasColor && !hasPlate then ((1 : ℚ), (0 : ℚ), (0 : ℚ))
    else if hasColor && !hasPlate then (6/10, 4/10, 0)
    else if hasPlate && !hasColor then (4/10, 0, 6/10)
    else (4/10, 2/10, 4/10)
  w.1 * clipScore + w.2.1 * colorScore + w.2.2 * plateScore

/-- Target kind of a hit (`target_type: Literal["frame", "object"]`). -/
inductive TargetKind where
  | frame
  | obj
deriving DecidableEq, Repr

/-- Python stored `ObjectType` (value_objects.py). -/
inductive ObjectType where
  | PERSON
  | TRANSPORT
deriving DecidableEq, Repr

/-- Search result record `SearchHit`. -/
structure SearchHit where
  target_type : TargetKind
  frame_id : String
  object_id : Option String
  timestamp_sec : ℚ
  final_score : ℚ
  clip_score : ℚ
  color_score : ℚ
  plate_score : ℚ
  track_id : Option Int
deriving DecidableEq, Repr

/-- Frame candidate `_FrameCandidate` (as parsed from storage). -/
structure FrameCandidate where
  frame_id : String
  timestamp_sec : ℚ
  vector : List ℚ
deriving DecidableEq, Repr

/-- Object candidate `_ObjectCandidate` (as parsed from storage). -/
structure ObjectCandidate where
  object_id : String
  frame_id : String
  timestamp_sec : ℚ
  object_type : ObjectType
  track_id : Option Int
  vector : List ℚ
  transport_color_hsv : Option String
  transport_plate : Option String
  person_upper_hsv : Option String
  person_lower_hsv : Option String
deriving DecidableEq, Repr

/-- Function `_parse_hsv`: parse an `"h,s,v"` attribute string. -/
def parseHsv (hsvStr : Option String) : Option (ℚ × ℚ × ℚ) :=
  match hsvStr with
  | none => none
  | some s =>
    if s.isEmpty then none
    else
      match splitComma s.data with
      | [hs, ss, vs] =>
        match parseDecimal hs, parseDecimal ss, parseDecimal vs with
        | some h, some sv, some v => some (h, sv, v)
        | _, _, _ => none
      | _ => none

/-- Function `_compute_object_color_score`. -/
def computeObjectColorScore (parsed : ParsedQuery) (cand : ObjectCandidate) : ℚ :=
  match cand.object_type with
  | ObjectType.TRANSPORT =>
    if !optStrTruthy parsed.color then 0
    else
      match parseHsv cand.transport_color_hsv with
      | none => 0
      | some (h, s, v) =>
        match parsed.color with
        | some c => computeColorScore c h s v
        | none => 0
  | ObjectType.PERSON =>
    let upperScore : Option ℚ :=
      if optStrTruthy parsed.upper_color && optStrTruthy cand.person_upper_hsv then
        match parseHsv cand.person_upper_hsv, parsed.upper_color with
        | some (h, s, v), some c => some (computeColorScore c h s v)
        | _, _ => none
      else none
    let lowerScore : Option ℚ :=
      if optStrTruthy parsed.lower_color && optStrTruthy cand.person_lower_hsv then
        match parseHsv cand.person_lower_hsv, parsed.lower_color with
        | some (h, s, v), some c => some (computeColorScore c h s v)
        | _, _ => none
      else none
    let scores := upperScore.toList ++ lowerScore.toList
    if scores.isEmpty then 0
    else scores.sum / (scores.length : ℚ)

/-- Scoring loop `_score_frames`: only the clip score is live; a vector
length mismatch raised by `_cosine_similarity` propagates. -/
def scoreFrames (queryVector : List ℚ) :
    List FrameCandidate → Except String (List SearchHit)
  | [] => Except.ok []
  | c :: rest => do
    let clip ← cosineSim queryVector c.vector
    let hits ← scoreFrames queryVector rest
    Except.ok
      ({ target_type := TargetKind.frame
         frame_id := c.frame_id
         object_id := none
         timestamp_sec := c.timestamp_sec
         final_score := combineScores clip 0 0
         clip_score := clip
         color_score := 0
         plate_score := 0
         track_id := none } :: hits)

/-- Scoring loop `_score_objects`. -/
def scoreObjects (fuzz : String → String → ℚ) (parsed : ParsedQuery)
    (queryVector : List ℚ) :
    List ObjectCandidate → Except String (List SearchHit)
  | [] => Except.ok []
  | c :: rest => do
    let clip ← cosineSim queryVector c.vector
    let color := computeObjectColorScore parsed c
    let plate := computePlateScore fuzz parsed.plate c.transport_plate
    let hits ← scoreObjects fuzz parsed queryVector rest
    Except.ok
      ({ target_type := TargetKind.obj
         frame_id := c.frame_id
         object_id := some c.object_id
         timestamp_sec := c.timestamp_sec
         final_score := combineScores clip color plate
         clip_score := clip
         color_score := color
         plate_score := plate
         track_id := c.track_id } :: hits)

/-! ## Filtering, sorting, relaxation (search_service.py) -/

/-- Function `_filter_hits`: keep hits passing the clip gate, the color and
plate presence gates (when the query has those signals), and the final-score
threshold. -/
def filterHits (hits : List SearchHit) (queryHasColor queryHasPlate : Bool)
    (clipMin finalMin : ℚ) : List SearchHit :=
  hits.filter (fun h =>
    !decide (h.clip_score < clipMin) &&
    !(queryHasColor && decide (h.color_score ≤ 0)) &&
    !(queryHasPlate && decide (h.plate_score ≤ 0)) &&
    !decide (h.final_score < finalMin))

/-- Stable insertion of an element in front of the first entry it relates
to. -/
def insertStable (le : α → α → Bool) (x : α) : List α → List α
  | [] => [x]
  | y :: ys => if le x y then x :: y :: ys else y :: insertStable le x ys

/-- Stable sort by a Boolean relation, modelling Python's stable
`list.sort`: a stable sort's output is determined by the comparator alone. -/
def sortStable (le : α → α → Bool) : List α → List α
  | [] => []
  | x :: xs => insertStable le x (sortStable le xs)

/-- Descending-by-final-score comparator of
`filtered.sort(key=..., reverse=True)`. -/
def leFinalDesc (a b : SearchHit) : Bool := decide (b.final_score ≤ a.final_score)

/-- Descending-by-clip-score comparator of the fallback sort. -/
def leClipDesc (a b : SearchHit) : Bool := decide (b.clip_score ≤ a.clip_score)

/-- Relaxation loop of `search_by_text`: lower the final threshold by 1/10
while it stays nonnegative, returning the first non-empty filtered set,
sorted.  Structural recursion on a fuel counter that outlasts the loop's own
`current < 0` exit (see the header comment). -/
def relaxLoop (hits : List SearchHit) (queryHasColor queryHasPlate : Bool)
    (clipMin : ℚ) : Nat → ℚ → Option (List SearchHit)
  | 0, _ => none
  | fuel + 1, current =>
    if current < 0 then none
    else
      let filtered := filterHits hits queryHasColor queryHasPlate clipMin current
      if filtered.isEmpty then
        relaxLoop hits queryHasColor queryHasPlate clipMin fuel (current - 1/10)
      else some (sortStable leFinalDesc filtered)

/-- Filtering, adaptive relaxation and fallback of `search_by_text`
(lines 153–184), applied to the scored hits. -/
def searchFromHits (hits : List SearchHit) (queryHasColor queryHasPlate : Bool)
    (clipMin finalMin : ℚ) : List SearchHit :=
  let filtered := filterHits hits queryHasColor queryHasPlate clipMin finalMin
  if filtered.isEmpty then
    match relaxLoop hits queryHasColor queryHasPlate clipMin
        ((finalMin * 10).floor.toNat + 2) (finalMin - 1/10) with
    | some r => r
    | none =>
      if hits.isEmpty then []
      else (sortStable leClipDesc hits).take 5
  else sortStable leFinalDesc filtered

/-- Main entry `search_by_text`.  The external collaborators appear as
inputs: `queryVector` is the embedder's output on the cleaned text, and
`frameCands`/`objectCands` are the candidate lists the database fetch
returns for the frame and object paths. -/
def searchByText (fuzz : String → String → ℚ) (text : String)
    (queryVector : List ℚ) (clipMinPure finalMin : ℚ)
    (frameCands : List FrameCandidate) (objectCands : List ObjectCandidate) :
    Except String (List SearchHit) :=
  let parsed := parseQuery text
  let queryHasColor :=
    parsed.color.isSome || parsed.upper_color.isSome || parsed.lower_color.isSome
  let queryHasPlate := parsed.plate.isSome
  let scored :=
    match parsed.type with
    | none => scoreFrames queryVector frameCands
    | some _ => scoreObjects fuzz parsed queryVector objectCands
  scored.map (fun hits =>
    searchFromHits hits queryHasColor queryHasPlate clipMinPure finalMin)

/-- Decidable equality for `Except` results, used to evaluate concrete
search outcomes. -/
instance exceptDecEq {ε α : Type} [DecidableEq ε] [DecidableEq α] :
    DecidableEq (Except ε α)
  | Except.error e, Except.error f =>
    if h : e = f then Decidable.isTrue (h ▸ rfl)
    else Decidable.isFalse (fun hh => by cases hh; exact h rfl)
  | Except.error _, Except.ok _ => Decidable.isFalse (fun hh => by cases hh)
  | Except.ok _, Except.error _ => Decidable.isFalse (fun hh => by cases hh)
  | Except.ok a, Except.ok b =>
    if h : a = b then Decidable.isTrue (h ▸ rfl)
    else Decidable.isFalse (fun hh => by cases hh; exact h rfl)

/-! ## Concrete inputs used by witnesses and counterexamples -/

/-- Trivial stand-in for the external fuzzy-ratio collaborator (never
consulted on the concrete inputs below, which carry no plate). -/
def fuzzZero : String → String → ℚ := fun _ _ => 0

/-- Concrete query: no type keyword, no color stem, no plate pattern. -/
def qPlain : String := "something"

/-- Concrete query for the plate/color interaction: a person with a garment
keyword, a spaced plate between the garment and the color word. -/
def qC5 : String := "человек куртка а 123 вс 77 красный"

/-- Concrete person query with a color but no garment keyword. -/
def qPersonRed : String := "красный человек"

/-- Frame candidate whose stored vector is the negation of the query
vector `[1]`. -/
def frameCandNeg : FrameCandidate := ⟨"f1", 0, [-1]⟩

/-- Frame candidate whose stored vector equals the query vector `[1]`. -/
def frameCandPos : FrameCandidate := ⟨"f2", 1, [1]⟩

/-- Person candidate with a stored upper-garment HSV attribute. -/
def personCand : ObjectCandidate :=
  ⟨"o1", "f1", 0, ObjectType.PERSON, some 7, [1], none, none,
   some ("0,0,0.05"), none⟩

/-- Hit whose final score clears 1/10 but not 2/10 or 3/10. -/
def hitC2 : SearchHit :=
  ⟨TargetKind.frame, "f1", none, 0, 15/100, 15/100, 0, 0, none⟩

/-- Concrete query assigning an upper-garment color. -/
def qUpperRed : String := "красная куртка человек"

/-- Hit produced by scoring `frameCandPos` against the query vector `[1]`. -/
def hitPos : SearchHit :=
  ⟨TargetKind.frame, "f2", none, 1, 1, 1, 0, 0, none⟩

/-- Hit produced by scoring `frameCandNeg` against the query vector `[1]`. -/
def hitNeg : SearchHit :=
  ⟨TargetKind.frame, "f1", none, 0, -1, -1, 0, 0, none⟩

/-- Hit produced by scoring `personCand` for the query `qPersonRed`. -/
def hitPerson : SearchHit :=
  ⟨TargetKind.obj, "f1", some ("o1"), 0, 1, 1, 0, 0, some 7⟩

/-! # Lemmas about the embedded operations -/

/-! ## Stable sort -/

theorem insertStable_length (le : α → α → Bool) (x : α) (l : List α) :
    (insertStable le x l).length = l.length + 1 := by
  induction l with
  | nil => rfl
  | cons y ys ih => simp only [insertStable]; split <;> simp [ih]

theorem sortStable_length (le : α → α → Bool) (l : List α) :
    (sortStable le l).length = l.length := by
  induction l with
  | nil => rfl
  | cons x xs ih => simp [sortStable, insertStable_length, ih]

theorem mem_insertStable (le : α → α → Bool) (x y : α) (l : List α) :
    y ∈ insertStable le x l ↔ y = x ∨ y ∈ l := by
  induction l with
  | nil => simp [insertStable]
  | cons z zs ih =>
    simp only [insertStable]
    split
    · simp [ih]
      try tauto
    · simp [ih]
      try tauto

theorem mem_sortStable (le : α → α → Bool) (y : α) (l : List α) :
    y ∈ sortStable le l ↔ y ∈ l := by
  induction l with
  | nil => simp [sortStable]
  | cons x xs ih => simp [sortStable, mem_insertStable, ih]

theorem sortStable_eq_nil_iff (le : α → α → Bool) (l : List α) :
    sortStable le l = [] ↔ l = [] := by
  constructor
  · intro h
    have hl := sortStable_length le l
    rw [h] at hl
    exact List.length_eq_zero.mp hl.symm
  · rintro rfl; rfl

theorem insertStable_pairwise (le : α → α → Bool)
    (total : ∀ a b, le a b || le b a)
    (htrans : ∀ a b c, le a b = true → le b c = true → le a c = true)
    (x : α) (l : List α) (h : l.Pairwise (fun a b => le a b = true)) :
    (insertStable le x l).Pairwise (fun a b => le a b = true) := by
  induction l with
  | nil => simp [insertStable]
  | cons y ys ih =>
    rw [List.pairwise_cons] at h
    obtain ⟨hy, hys⟩ := h
    simp only [insertStable]
    split
    case isTrue hxy =>
      rw [List.pairwise_cons]
      refine ⟨?_, ?_⟩
      · intro z hz
        rcases List.mem_cons.mp hz with rfl | hz
        · exact hxy
        · exact htrans x y z hxy (hy z hz)
      · rw [List.pairwise_cons]; exact ⟨hy, hys⟩
    case isFalse hxy =>
      rw [List.pairwise_cons]
      refine ⟨?_, ih hys⟩
      intro z hz
      rcases (mem_insertStable le x z ys).mp hz with rfl | hz
      · have htot := total z y
        rw [Bool.or_eq_true] at htot
        rcases htot with h' | h'
        · exact absurd h' hxy
        · exact h'
      · exact hy z hz

theorem sortStable_pairwise (le : α → α → Bool)
    (total : ∀ a b, le a b || le b a)
    (htrans : ∀ a b c, le a b = true → le b c = true → le a c = true)
    (l : List α) :
    (sortStable le l).Pairwise (fun a b => le a b = true) := by
  induction l with
  | nil => simp [sortStable]
  | cons x xs ih => exact insertStable_pairwise le total htrans x _ ih

theorem leFinalDesc_total : ∀ a b, leFinalDesc a b || leFinalDesc b a := by
  intro a b
  simp only [leFinalDesc, Bool.or_eq_true, decide_eq_true_eq]
  exact le_total _ _

theorem leFinalDesc_trans :
    ∀ a b c, leFinalDesc a b = true → leFinalDesc b c = true →
      leFinalDesc a c = true := by
  intro a b c hab hbc
  simp only [leFinalDesc, decide_eq_true_eq] at *
  exact le_trans hbc hab

/-! ## Filtering -/

theorem mem_of_mem_filterHits {x : SearchHit} {hits qc qp cm fm}
    (h : x ∈ filterHits hits qc qp cm fm) : x ∈ hits := by
  unfold filterHits at h
  exact (List.mem_filter.mp h).1

theorem filterHits_nil (qc qp : Bool) (cm fm : ℚ) :
    filterHits [] qc qp cm fm = [] := rfl

theorem filterHits_empty_of_color_zero {hits : List SearchHit} {qp cm fm}
    (hcol : ∀ h ∈ hits, h.color_score = 0) :
    filterHits hits true qp cm fm = [] := by
  unfold filterHits
  rw [List.filter_eq_nil_iff]
  intro a ha
  simp [hcol a ha]

/-! ## Relaxation loop -/

theorem relaxLoop_none_of_empty {hits qc qp cm}
    (hempty : ∀ cur : ℚ, filterHits hits qc qp cm cur = []) :
    ∀ fuel (cur : ℚ), relaxLoop hits qc qp cm fuel cur = none := by
  intro fuel
  induction fuel with
  | zero => intro cur; rfl
  | succ n ih => intro cur; simp [relaxLoop, hempty, ih]

theorem relaxLoop_some_shape {hits qc qp cm} :
    ∀ fuel (cur : ℚ) r, relaxLoop hits qc qp cm fuel cur = some r →
      ∃ c, filterHits hits qc qp cm c ≠ [] ∧
        r = sortStable leFinalDesc (filterHits hits qc qp cm c) := by
  intro fuel
  induction fuel with
  | zero => intro cur r h; exact absurd h (by simp [relaxLoop])
  | succ n ih =>
    intro cur r h
    simp only [relaxLoop] at h
    by_cases hc : cur < 0
    · simp [hc] at h
    · rw [if_neg hc] at h
      by_cases he : (filterHits hits qc qp cm cur).isEmpty
      · rw [if_pos he] at h
        exact ih _ r h
      · rw [if_neg he] at h
        refine ⟨cur, ?_, (Option.some.inj h).symm⟩
        simpa [List.isEmpty_iff] using he

/-! ## Search result structure -/

theorem mem_hits_of_mem_searchFromHits {x : SearchHit} {hits qc qp cm fm}
    (h : x ∈ searchFromHits hits qc qp cm fm) : x ∈ hits := by
  unfold searchFromHits at h
  by_cases he : (filterHits hits qc qp cm fm).isEmpty
  · rw [if_pos he] at h
    cases hr : relaxLoop hits qc qp cm ((fm * 10).floor.toNat + 2) (fm - 1/10) with
    | some r =>
      rw [hr] at h
      obtain ⟨c, _, rfl⟩ := relaxLoop_some_shape _ _ _ hr
      exact mem_of_mem_filterHits ((mem_sortStable _ _ _).mp h)
    | none =>
      rw [hr] at h
      by_cases hn : hits.isEmpty
      · rw [if_pos hn] at h; cases h
      · rw [if_neg hn] at h
        exact (mem_sortStable _ _ _).mp (List.take_subset 5 _ h)
  · rw [if_neg he] at h
    exact mem_of_mem_filterHits ((mem_sortStable _ _ _).mp h)

theorem searchFromHits_eq_nil_iff (hits : List SearchHit) (qc qp cm fm) :
    searchFromHits hits qc qp cm fm = [] ↔ hits = [] := by
  constructor
  · intro h
    by_contra hne
    unfold searchFromHits at h
    by_cases he : (filterHits hits qc qp cm fm).isEmpty
    · rw [if_pos he] at h
      cases hr : relaxLoop hits qc qp cm ((fm * 10).floor.toNat + 2) (fm - 1/10) with
      | some r =>
        rw [hr] at h
        obtain ⟨c, hc, rfl⟩ := relaxLoop_some_shape _ _ _ hr
        exact hc ((sortStable_eq_nil_iff _ _).mp h)
      | none =>
        rw [hr] at h
        rw [if_neg (by simpa [List.isEmpty_iff] using hne)] at h
        rcases List.take_eq_nil_iff.mp h with h5 | hs
        · cases h5
        · exact hne ((sortStable_eq_nil_iff _ _).mp hs)
    · rw [if_neg he] at h
      rw [(sortStable_eq_nil_iff _ _).mp h] at he
      simp at he
  · rintro rfl
    unfold searchFromHits
    simp only [filterHits_nil, List.isEmpty_nil, if_true]
    rw [relaxLoop_none_of_empty (fun cur => filterHits_nil qc qp cm cur) _ _]

theorem le_clamp (v minValue maxValue : ℚ) (h : minValue ≤ maxValue) :
    minValue ≤ clamp v minValue maxValue := by
  unfold clamp; split_ifs <;> linarith

theorem clamp_le (v minValue maxValue : ℚ) (h : minValue ≤ maxValue) :
    clamp v minValue maxValue ≤ maxValue := by
  unfold clamp; split_ifs <;> linarith

theorem blackScore_mem (v : ℚ) : 0 ≤ blackScore v ∧ blackScore v ≤ 1 := by
  unfold blackScore
  split_ifs with h1 h2
  · norm_num
  · norm_num
  · have hv1 : (v - 12/100) / (1/2 - 12/100) ≤ 1 := by
      rw [div_le_one (by norm_num)]
      linarith
    have hv0 : (0 : ℚ) ≤ (v - 12/100) / (1/2 - 12/100) :=
      div_nonneg (by linarith) (by norm_num)
    constructor <;> linarith

theorem scoreAchromatic_mem (c : String) (s v : ℚ) :
    0 ≤ scoreAchromatic c s v ∧ scoreAchromatic c s v ≤ 1 := by
  unfold scoreAchromatic
  split_ifs
  · exact ⟨le_clamp _ _ _ (by norm_num), clamp_le _ _ _ (by norm_num)⟩
  · exact ⟨le_clamp _ _ _ (by norm_num), clamp_le _ _ _ (by norm_num)⟩
  · exact blackScore_mem v
  · norm_num

theorem scoreChromatic_mem (c : String) (h s v : ℚ) :
    0 ≤ scoreChromatic c h s v ∧ scoreChromatic c h s v ≤ 1 :=
  ⟨le_clamp _ _ _ (by norm_num), clamp_le _ _ _ (by norm_num)⟩

theorem computeColorScore_mem (c : String) (h s v : ℚ) :
    0 ≤ computeColorScore c h s v ∧ computeColorScore c h s v ≤ 1 := by
  simp only [computeColorScore]
  split_ifs
  · exact scoreAchromatic_mem _ _ _
  · exact scoreChromatic_mem _ _ _ _
  · norm_num

theorem combineScores_bounds (clip color plate : ℚ)
    (h1 : -1 ≤ clip) (h2 : clip ≤ 1) (h3 : 0 ≤ color) (h4 : color ≤ 1)
    (h5 : 0 ≤ plate) (h6 : plate ≤ 1) :
    -1 ≤ combineScores clip color plate ∧ combineScores clip color plate ≤ 1 := by
  simp only [combineScores]
  split_ifs <;> constructor <;> norm_num <;> linarith

theorem computePlateScore_mem (fuzz : String → String → ℚ)
    (hfuzz : ∀ a b, 0 ≤ fuzz a b ∧ fuzz a b ≤ 100) (qp dp : Option String) :
    0 ≤ computePlateScore fuzz qp dp ∧ computePlateScore fuzz qp dp ≤ 1 := by
  unfold computePlateScore
  split_ifs with ht
  · norm_num
  · cases qp with
    | none => norm_num
    | some q =>
      cases dp with
      | none => norm_num
      | some d =>
        cases hq : normalizePlateText q with
        | none => norm_num [hq]
        | some qn =>
          cases hd : normalizePlateText d with
          | none => norm_num [hq, hd]
          | some dn =>
            simp only [hq, hd]
            split_ifs with he hl
            · norm_num
            · norm_num
            · obtain ⟨hf0, hf100⟩ := hfuzz qn dn
              constructor <;> linarith

theorem sum_div_length_mem (l : List ℚ) (hne : l ≠ [])
    (hb : ∀ x ∈ l, 0 ≤ x ∧ x ≤ 1) :
    0 ≤ l.sum / (l.length : ℚ) ∧ l.sum / (l.length : ℚ) ≤ 1 := by
  have hlen : 0 < (l.length : ℚ) := by
    have hp : 0 < l.length := List.length_pos.mpr hne
    exact_mod_cast hp
  have hsum0 : 0 ≤ l.sum := List.sum_nonneg (fun x hx => (hb x hx).1)
  have hsuml : l.sum ≤ (l.length : ℚ) := by
    have hs := List.sum_le_card_nsmul l 1 (fun x hx => (hb x hx).2)
    simpa using hs
  exact ⟨div_nonneg hsum0 hlen.le, (div_le_one hlen).mpr hsuml⟩

theorem avgOpt_mem (u l : Option ℚ)
    (hu : ∀ x, u = some x → 0 ≤ x ∧ x ≤ 1)
    (hl : ∀ x, l = some x → 0 ≤ x ∧ x ≤ 1) :
    0 ≤ (if (u.toList ++ l.toList).isEmpty then (0 : ℚ)
         else (u.toList ++ l.toList).sum / ((u.toList ++ l.toList).length : ℚ)) ∧
    (if (u.toList ++ l.toList).isEmpty then (0 : ℚ)
     else (u.toList ++ l.toList).sum / ((u.toList ++ l.toList).length : ℚ)) ≤ 1 := by
  split_ifs with he
  · norm_num
  · refine sum_div_length_mem _ ?_ ?_
    · intro hnil
      rw [hnil] at he
      simp at he
    · intro x hx
      rcases List.mem_append.mp hx with hx | hx
      · cases hu' : u with
        | none => rw [hu'] at hx; simp at hx
        | some y =>
          rw [hu'] at hx
          simp only [Option.toList_some, List.mem_singleton] at hx
          exact hx ▸ hu y hu'
      · cases hl' : l with
        | none => rw [hl'] at hx; simp at hx
        | some y =>
          rw [hl'] at hx
          simp only [Option.toList_some, List.mem_singleton] at hx
          exact hx ▸ hl y hl'

theorem computeObjectColorScore_mem (parsed : ParsedQuery) (cand : ObjectCandidate) :
    0 ≤ computeObjectColorScore parsed cand ∧
      computeObjectColorScore parsed cand ≤ 1 := by
  unfold computeObjectColorScore
  cases hct : cand.object_type <;> dsimp only
  case TRANSPORT =>
    split_ifs
    · norm_num
    · cases hsv : parseHsv cand.transport_color_hsv with
      | none => norm_num
      | some hsvv =>
        obtain ⟨h, s, v⟩ := hsvv
        cases hc : parsed.color with
        | none => norm_num
        | some c => exact computeColorScore_mem c h s v
  case PERSON =>
    refine avgOpt_mem _ _ ?_ ?_
    · intro x hx
      split_ifs at hx
      · cases hph : parseHsv cand.person_upper_hsv with
        | none =>
          rw [hph] at hx
          cases huc : parsed.upper_color <;> rw [huc] at hx <;> simp at hx
        | some hsvv =>
          obtain ⟨h, s, v⟩ := hsvv
          rw [hph] at hx
          cases huc : parsed.upper_color with
          | none => rw [huc] at hx; simp at hx
          | some c =>
            rw [huc] at hx
            simp only [Option.some.injEq] at hx
            exact hx ▸ computeColorScore_mem c h s v
    · intro x hx
      split_ifs at hx
      · cases hph : parseHsv cand.person_lower_hsv with
        | none =>
          rw [hph] at hx
          cases hlc : parsed.lower_color <;> rw [hlc] at hx <;> simp at hx
        | some hsvv =>
          obtain ⟨h, s, v⟩ := hsvv
          rw [hph] at hx
          cases hlc : parsed.lower_color with
          | none => rw [hlc] at hx; simp at hx
          | some c =>
            rw [hlc] at hx
            simp only [Option.some.injEq] at hx
            exact hx ▸ computeColorScore_mem c h s v

/-! ## Cosine similarity: Cauchy–Schwarz and bounds -/

theorem sum_sq_fst_nonneg (l : List (ℚ × ℚ)) :
    0 ≤ (l.map (fun q => q.1 * q.1)).sum := by
  induction l with
  | nil => simp
  | cons x xs ih =>
    simp only [List.map_cons, List.sum_cons]
    nlinarith [mul_self_nonneg x.1]

theorem sum_sq_snd_nonneg (l : List (ℚ × ℚ)) :
    0 ≤ (l.map (fun q => q.2 * q.2)).sum := by
  induction l with
  | nil => simp
  | cons x xs ih =>
    simp only [List.map_cons, List.sum_cons]
    nlinarith [mul_self_nonneg x.2]

theorem list_cauchy_schwarz (l : List (ℚ × ℚ)) :
    ((l.map (fun q => q.1 * q.2)).sum) ^ 2 ≤
      ((l.map (fun q => q.1 * q.1)).sum) * ((l.map (fun q => q.2 * q.2)).sum) := by
  induction l with
  | nil => simp
  | cons x xs ih =>
    obtain ⟨a, b⟩ := x
    simp only [List.map_cons, List.sum_cons]
    have hA := sum_sq_fst_nonneg xs
    have hB := sum_sq_snd_nonneg xs
    set S := (xs.map (fun q => q.1 * q.2)).sum with hS
    set A := (xs.map (fun q => q.1 * q.1)).sum with hAd
    set B := (xs.map (fun q => q.2 * q.2)).sum with hBd
    rcases eq_or_lt_of_le hB with hB0 | hB0
    · have hS2 : S ^ 2 ≤ 0 := by
        calc S ^ 2 ≤ A * B := ih
        _ = 0 := by rw [← hB0, mul_zero]
      have hS0 : S = 0 := by nlinarith [sq_nonneg S]
      rw [hS0, ← hB0]
      nlinarith [mul_self_nonneg b, mul_self_nonneg (a * b)]
    · nlinarith [sq_nonneg (a * B - b * S),
        mul_nonneg (add_nonneg (mul_self_nonneg b) hB0.le)
          (sub_nonneg.mpr ih)]

theorem ratSqrt_nonneg (q : ℚ) : 0 ≤ ratSqrt q := by
  unfold ratSqrt
  split_ifs
  · exact Rat.sqrt_nonneg q
  · exact le_refl _

theorem ratSqrt_sq (q : ℚ) (h : 0 ≤ q) : ratSqrt (q * q) = q := by
  unfold ratSqrt
  rw [Rat.sqrt_eq, if_pos (abs_mul_abs_self q), abs_of_nonneg h]

theorem cosineSim_ok_of_length {a b : List ℚ} (h : a.length = b.length) :
    ∃ x, cosineSim a b = Except.ok x := by
  unfold cosineSim
  rw [if_neg (by simp [h])]
  dsimp only
  split_ifs <;> exact ⟨_, rfl⟩

theorem cosineSim_error_iff (a b : List ℚ) :
    (∃ e, cosineSim a b = Except.error e) ↔ a.length ≠ b.length := by
  constructor
  · intro ⟨e, he⟩
    intro hlen
    obtain ⟨x, hx⟩ := cosineSim_ok_of_length hlen
    rw [hx] at he
    cases he
  · intro hlen
    unfold cosineSim
    rw [if_pos hlen]
    exact ⟨_, rfl⟩

theorem cosineSim_ok_bounds {a b : List ℚ} {x : ℚ}
    (h : cosineSim a b = Except.ok x) : -1 ≤ x ∧ x ≤ 1 := by
  unfold cosineSim at h
  by_cases hlen : a.length ≠ b.length
  · rw [if_pos hlen] at h; cases h
  · rw [if_neg hlen] at h
    by_cases hz : ((a.zip b).map (fun q => q.1 * q.1)).sum = 0 ∨
        ((a.zip b).map (fun q => q.2 * q.2)).sum = 0
    · rw [if_pos hz] at h
      obtain rfl : (0 : ℚ) = x := Except.ok.inj h
      norm_num
    · rw [if_neg hz] at h
      obtain rfl := (Except.ok.inj h).symm
      push_neg at hz
      obtain ⟨hna, hnb⟩ := hz
      have hA := sum_sq_fst_nonneg (a.zip b)
      have hB := sum_sq_snd_nonneg (a.zip b)
      set dot := ((a.zip b).map (fun q => q.1 * q.2)).sum with hdot
      set na := ((a.zip b).map (fun q => q.1 * q.1)).sum with hnad
      set nb := ((a.zip b).map (fun q => q.2 * q.2)).sum with hnbd
      have hCS : dot ^ 2 ≤ na * nb := list_cauchy_schwarz (a.zip b)
      unfold ratSqrt
      split_ifs with hsq
      · set r := Rat.sqrt (na * nb) with hr
        have hr0 : 0 ≤ r := Rat.sqrt_nonneg _
        have hprod : 0 < na * nb :=
          mul_pos (lt_of_le_of_ne hA (Ne.symm hna)) (lt_of_le_of_ne hB (Ne.symm hnb))
        have hrpos : 0 < r := by
          rcases eq_or_lt_of_le hr0 with h0 | h0
          · rw [← h0] at hsq; rw [← hsq] at hprod; norm_num at hprod
          · exact h0
        constructor
        · rw [le_div_iff₀ hrpos]
          nlinarith [sq_nonneg (dot + r)]
        · rw [div_le_one hrpos]
          nlinarith [sq_nonneg (dot - r)]
      · rw [div_zero]
        norm_num

/-! ## Scored hit lists -/

theorem scoreFrames_ok {qv : List ℚ} {cands : List FrameCandidate}
    (hlen : ∀ c ∈ cands, c.vector.length = qv.length) :
    ∃ hits, scoreFrames qv cands = Except.ok hits ∧ hits.length = cands.length := by
  induction cands with
  | nil => exact ⟨[], rfl, rfl⟩
  | cons c rest ih =>
    obtain ⟨clip, hclip⟩ :=
      @cosineSim_ok_of_length qv c.vector (hlen c (by simp)).symm
    obtain ⟨hits, hh, hl⟩ := ih (fun d hd => hlen d (by simp [hd]))
    refine ⟨(⟨TargetKind.frame, c.frame_id, none, c.timestamp_sec,
        combineScores clip 0 0, clip, 0, 0, none⟩ : SearchHit) :: hits,
      ?_, by simp [hl]⟩
    rw [scoreFrames, hclip, hh]
    rfl

theorem scoreFrames_mem {qv : List ℚ} {cands : List FrameCandidate}
    {hits : List SearchHit} (h : scoreFrames qv cands = Except.ok hits) :
    ∀ x ∈ hits, x.color_score = 0 ∧ x.plate_score = 0 ∧
      (-1 ≤ x.clip_score ∧ x.clip_score ≤ 1) ∧
      x.final_score = combineScores x.clip_score x.color_score x.plate_score := by
  induction cands generalizing hits with
  | nil =>
    obtain rfl : ([] : List SearchHit) = hits := Except.ok.inj h
    intro x hx
    cases hx
  | cons c rest ih =>
    rw [scoreFrames] at h
    cases hc : cosineSim qv c.vector with
    | error e => rw [hc] at h; cases h
    | ok clip =>
      rw [hc] at h
      cases hr : scoreFrames qv rest with
      | error e => rw [hr] at h; cases h
      | ok tl =>
        rw [hr] at h
        obtain rfl := Except.ok.inj h
        intro x hx
        rcases List.mem_cons.mp hx with rfl | hx
        · exact ⟨rfl, rfl, cosineSim_ok_bounds hc, rfl⟩
        · exact ih hr x hx

theorem scoreObjects_ok {fuzz : String → String → ℚ} {parsed : ParsedQuery}
    {qv : List ℚ} {cands : List ObjectCandidate}
    (hlen : ∀ c ∈ cands, c.vector.length = qv.length) :
    ∃ hits, scoreObjects fuzz parsed qv cands = Except.ok hits ∧
      hits.length = cands.length := by
  induction cands with
  | nil => exact ⟨[], rfl, rfl⟩
  | cons c rest ih =>
    obtain ⟨clip, hclip⟩ :=
      @cosineSim_ok_of_length qv c.vector (hlen c (by simp)).symm
    obtain ⟨hits, hh, hl⟩ := ih (fun d hd => hlen d (by simp [hd]))
    refine ⟨(⟨TargetKind.obj, c.frame_id, some c.object_id, c.timestamp_sec,
        combineScores clip (computeObjectColorScore parsed c)
          (computePlateScore fuzz parsed.plate c.transport_plate),
        clip, computeObjectColorScore parsed c,
        computePlateScore fuzz parsed.plate c.transport_plate,
        c.track_id⟩ : SearchHit) :: hits,
      ?_, by simp [hl]⟩
    rw [scoreObjects, hclip, hh]
    rfl

theorem scoreObjects_mem {fuzz : String → String → ℚ} {parsed : ParsedQuery}
    {qv : List ℚ} {cands : List ObjectCandidate} {hits : List SearchHit}
    (h : scoreObjects fuzz parsed qv cands = Except.ok hits) :
    ∀ x ∈ hits, (-1 ≤ x.clip_score ∧ x.clip_score ≤ 1) ∧
      (∃ c ∈ cands, x.color_score = computeObjectColorScore parsed c ∧
        x.plate_score = computePlateScore fuzz parsed.plate c.transport_plate) ∧
      x.final_score = combineScores x.clip_score x.color_score x.plate_score := by
  induction cands generalizing hits with
  | nil =>
    obtain rfl : ([] : List SearchHit) = hits := Except.ok.inj h
    intro x hx
    cases hx
  | cons c rest ih =>
    rw [scoreObjects] at h
    cases hc : cosineSim qv c.vector with
    | error e => rw [hc] at h; cases h
    | ok clip =>
      rw [hc] at h
      cases hr : scoreObjects fuzz parsed qv rest with
      | error e => rw [hr] at h; cases h
      | ok tl =>
        rw [hr] at h
        obtain rfl := Except.ok.inj h
        intro x hx
        rcases List.mem_cons.mp hx with rfl | hx
        · exact ⟨cosineSim_ok_bounds hc, ⟨c, by simp, rfl, rfl⟩, rfl⟩
        · obtain ⟨hclipb, ⟨d, hd, hcp⟩, hfin⟩ := ih hr x hx
          exact ⟨hclipb, ⟨d, by simp [hd], hcp⟩, hfin⟩

/-! ## Self- and negation-similarity sums -/

theorem sum_sq_list_nonneg (a : List ℚ) : 0 ≤ (a.map (fun x => x * x)).sum := by
  induction a with
  | nil => simp
  | cons x xs ih =>
    simp only [List.map_cons, List.sum_cons]
    nlinarith [mul_self_nonneg x]

theorem sum_sq_pos_of_nonzero {a : List ℚ} (h : ∃ x ∈ a, x ≠ 0) :
    0 < (a.map (fun x => x * x)).sum := by
  obtain ⟨x, hx, hx0⟩ := h
  induction a with
  | nil => cases hx
  | cons y ys ih =>
    simp only [List.map_cons, List.sum_cons]
    have hsum := sum_sq_list_nonneg ys
    rcases List.mem_cons.mp hx with rfl | hx
    · have hxx : 0 < x * x := mul_self_pos.mpr hx0
      linarith
    · have := ih hx
      have hy := mul_self_nonneg y
      linarith

theorem zip_self_sums (a : List ℚ) :
    ((a.zip a).map (fun q => q.1 * q.2)).sum = (a.map (fun x => x * x)).sum ∧
    ((a.zip a).map (fun q => q.1 * q.1)).sum = (a.map (fun x => x * x)).sum ∧
    ((a.zip a).map (fun q => q.2 * q.2)).sum = (a.map (fun x => x * x)).sum := by
  induction a with
  | nil => simp
  | cons x xs ih => simp [ih.1, ih.2.1, ih.2.2]

theorem zip_neg_sums (a : List ℚ) :
    ((a.zip (a.map (fun x => -x))).map (fun q => q.1 * q.2)).sum =
      -(a.map (fun x => x * x)).sum ∧
    ((a.zip (a.map (fun x => -x))).map (fun q => q.1 * q.1)).sum =
      (a.map (fun x => x * x)).sum ∧
    ((a.zip (a.map (fun x => -x))).map (fun q => q.2 * q.2)).sum =
      (a.map (fun x => x * x)).sum := by
  induction a with
  | nil => simp
  | cons x xs ih =>
    simp [ih.1, ih.2.1, ih.2.2]
    ring

theorem cosineSim_self {a : List ℚ} (h : ∃ x ∈ a, x ≠ 0) :
    cosineSim a a = Except.ok 1 := by
  have hpos := sum_sq_pos_of_nonzero h
  obtain ⟨h1, h2, h3⟩ := zip_self_sums a
  unfold cosineSim
  rw [if_neg (by simp)]
  dsimp only
  rw [h1, h2, h3]
  rw [if_neg (by simp [ne_of_gt hpos])]
  rw [ratSqrt_sq _ hpos.le, div_self (ne_of_gt hpos)]

theorem cosineSim_neg {a : List ℚ} (h : ∃ x ∈ a, x ≠ 0) :
    cosineSim a (a.map (fun x => -x)) = Except.ok (-1) := by
  have hpos := sum_sq_pos_of_nonzero h
  obtain ⟨h1, h2, h3⟩ := zip_neg_sums a
  unfold cosineSim
  rw [if_neg (by simp)]
  dsimp only
  rw [h1, h2, h3]
  rw [if_neg (by simp [ne_of_gt hpos])]
  rw [ratSqrt_sq _ hpos.le, neg_div, div_self (ne_of_gt hpos)]

/-! ## Parse-result structure -/

theorem mergedColor_exclusive (u l g : Option String)
    (h : u ≠ none ∨ l ≠ none) :
    (if u.isSome || l.isSome then none else g) = none := by
  rcases h with h | h
  · rw [if_pos]
    rw [Bool.or_eq_true]
    exact Or.inl (Option.isSome_iff_ne_none.mpr h)
  · rw [if_pos]
    rw [Bool.or_eq_true]
    exact Or.inr (Option.isSome_iff_ne_none.mpr h)

theorem mergedColor_some (u l g : Option String) (c : String)
    (h : (if u.isSome || l.isSome then none else g) = some c) :
    u = none ∧ l = none := by
  by_cases hu : u.isSome || l.isSome
  · rw [if_pos hu] at h; cases h
  · rw [Bool.or_eq_true] at hu
    push_neg at hu
    exact ⟨Option.not_isSome_iff_eq_none.mp (by simpa using hu.1),
           Option.not_isSome_iff_eq_none.mp (by simpa using hu.2)⟩

theorem computeObjectColorScore_person_zero (parsed : ParsedQuery)
    (cand : ObjectCandidate)
    (hu : parsed.upper_color = none) (hl : parsed.lower_color = none)
    (hct : cand.object_type = ObjectType.PERSON) :
    computeObjectColorScore parsed cand = 0 := by
  unfold computeObjectColorScore
  rw [hct]
  dsimp only
  simp [hu, hl, optStrTruthy]

/-! ## Search entry unfoldings -/

theorem searchFromHits_fallback {hits : List SearchHit} {qc qp : Bool} {cm fm : ℚ}
    (hempty : ∀ cur : ℚ, filterHits hits qc qp cm cur = []) :
    searchFromHits hits qc qp cm fm =
      if hits.isEmpty then [] else (sortStable leClipDesc hits).take 5 := by
  unfold searchFromHits
  dsimp only
  rw [hempty fm]
  rw [relaxLoop_none_of_empty hempty _ _]
  simp

theorem searchByText_frames {fuzz : String → String → ℚ} {text : String}
    {qv : List ℚ} {cm fm : ℚ} {fcs : List FrameCandidate}
    {ocs : List ObjectCandidate}
    (hty : (parseQuery text).type = none) {hits : List SearchHit}
    (hok : scoreFrames qv fcs = Except.ok hits) :
    searchByText fuzz text qv cm fm fcs ocs =
      Except.ok (searchFromHits hits
        ((parseQuery text).color.isSome || (parseQuery text).upper_color.isSome ||
          (parseQuery text).lower_color.isSome)
        (parseQuery text).plate.isSome cm fm) := by
  unfold searchByText
  dsimp only
  rw [hty]
  dsimp only
  rw [hok]
  rfl

theorem searchByText_objects {fuzz : String → String → ℚ} {text : String}
    {qv : List ℚ} {cm fm : ℚ} {fcs : List FrameCandidate}
    {ocs : List ObjectCandidate} {ty : QueryObjectType}
    (hty : (parseQuery text).type = some ty) {hits : List SearchHit}
    (hok : scoreObjects fuzz (parseQuery text) qv ocs = Except.ok hits) :
    searchByText fuzz text qv cm fm fcs ocs =
      Except.ok (searchFromHits hits
        ((parseQuery text).color.isSome || (parseQuery text).upper_color.isSome ||
          (parseQuery text).lower_color.isSome)
        (parseQuery text).plate.isSome cm fm) := by
  unfold searchByText
  dsimp only
  rw [hty]
  dsimp only
  rw [hok]
  rfl

/-! ## Auxiliary clamp/black facts -/

theorem clamp_eq_self (v lo hi : ℚ) (h1 : lo ≤ v) (h2 : v ≤ hi) :
    clamp v lo hi = v := by
  unfold clamp
  split_ifs with ha hb
  · linarith
  · linarith
  · rfl

theorem blackScore_eq_formula (v : ℚ) (h1 : 12/100 ≤ v) (h2 : v ≤ 1/2) :
    blackScore v = 1 - (v - 12/100) / (1/2 - 12/100) := by
  unfold blackScore
  split_ifs with ha hb
  · have hv : v = 12/100 := le_antisymm ha h1
    rw [hv]
    norm_num
  · have hv : v = 1/2 := le_antisymm h2 hb
    rw [hv]
    norm_num
  · rfl

theorem computeColorScore_black (h s v : ℚ) :
    computeColorScore ("black") h s v = blackScore (clamp v 0 1) := rfl

/-! # Claim theorems -/

/-- C4: the score combiner applies exactly the weight table keyed on which
of the color and plate scores are strictly positive: weights (1, 0, 0) when
neither is, (0.6, 0.4, 0) when only color, (0.4, 0, 0.6) when only plate,
(0.4, 0.2, 0.4) when both, applied to (clip, color, plate); in particular,
when color = 0 and plate = 0 the final score equals the clip score
exactly. -/
theorem combiner_weight_table (clip color plate : ℚ) :
    (¬ 0 < color → ¬ 0 < plate → combineScores clip color plate = clip) ∧
    (0 < color → ¬ 0 < plate →
      combineScores clip color plate = 6/10 * clip + 4/10 * color) ∧
    (¬ 0 < color → 0 < plate →
      combineScores clip color plate = 4/10 * clip + 6/10 * plate) ∧
    (0 < color → 0 < plate →
      combineScores clip color plate =
        4/10 * clip + 2/10 * color + 4/10 * plate) ∧
    combineScores clip 0 0 = clip := by
  refine ⟨fun hc hp => ?_, fun hc hp => ?_, fun hc hp => ?_, fun hc hp => ?_, ?_⟩
  · simp [combineScores, hc, hp]
  · simp [combineScores, hc, hp]
  · simp [combineScores, hc, hp]
  · simp [combineScores, hc, hp]
  · simp [combineScores]

/-- C7: type detection returns unset exactly when the PERSON-keyword and
TRANSPORT-keyword hit counts are equal (both zero, or equal and non-zero);
otherwise it returns the type whose keyword hit count is strictly higher. -/
theorem type_detection_tie_rule (text : List Char) :
    (detectType text = none ↔
      countKeywordHits text personKeywords =
        countKeywordHits text transportKeywords) ∧
    (countKeywordHits text personKeywords >
        countKeywordHits text transportKeywords →
      detectType text = some QueryObjectType.PERSON) ∧
    (countKeywordHits text transportKeywords >
        countKeywordHits text personKeywords →
      detectType text = some QueryObjectType.TRANSPORT) := by
  unfold detectType
  dsimp only
  split_ifs with h1 h2 h3
  · simp only [Bool.and_eq_true, decide_eq_true_eq] at h1
    exact ⟨⟨fun _ => (by omega), fun _ => rfl⟩, fun hp => (by omega), fun ht => (by omega)⟩
  · refine ⟨⟨fun hh => (by cases hh), fun he => (by omega)⟩, fun _ => rfl, fun ht => (by omega)⟩
  · refine ⟨⟨fun hh => (by cases hh), fun he => (by omega)⟩, fun hp => (by omega), fun _ => rfl⟩
  · refine ⟨⟨fun _ => (by omega), fun _ => rfl⟩, fun hp => (by omega), fun ht => (by omega)⟩

/-- C9: the color score for target black depends only on the (clamped)
value channel: exactly 1 for every value ≤ 0.12, exactly 0 for every value
≥ 0.50, and linearly strictly decreasing between those bounds, for all hue
and saturation inputs. -/
theorem black_score_value_channel (h s v : ℚ) :
    (∀ h' s', computeColorScore ("black") h' s' v =
      computeColorScore ("black") h s v) ∧
    (v ≤ 12/100 → computeColorScore ("black") h s v = 1) ∧
    (1/2 ≤ v → computeColorScore ("black") h s v = 0) ∧
    (12/100 < v → v < 1/2 →
      computeColorScore ("black") h s v =
        1 - (v - 12/100) / (1/2 - 12/100)) ∧
    (∀ v₁ v₂, 12/100 ≤ v₁ → v₁ < v₂ → v₂ ≤ 1/2 →
      computeColorScore ("black") h s v₂ <
        computeColorScore ("black") h s v₁) := by
  have hred : ∀ (h' s' v' : ℚ),
      computeColorScore ("black") h' s' v' = blackScore (clamp v' 0 1) :=
    fun _ _ _ => rfl
  refine ⟨fun h' s' => by rw [hred, hred], fun hv => ?_, fun hv => ?_,
    fun hv1 hv2 => ?_, fun v₁ v₂ ha hb hc => ?_⟩
  · rw [hred]
    have hcl : clamp v 0 1 ≤ 12/100 := by unfold clamp; split_ifs <;> linarith
    unfold blackScore
    rw [if_pos hcl]
  · rw [hred]
    have hcl : 1/2 ≤ clamp v 0 1 := by unfold clamp; split_ifs <;> linarith
    unfold blackScore
    rw [if_neg (by intro hcon; linarith), if_pos hcl]
  · rw [hred, clamp_eq_self v 0 1 (by linarith) (by linarith)]
    exact blackScore_eq_formula v (by linarith) (by linarith)
  · rw [hred, hred, clamp_eq_self v₁ 0 1 (by linarith) (by linarith),
      clamp_eq_self v₂ 0 1 (by linarith) (by linarith),
      blackScore_eq_formula v₁ (by linarith) (by linarith),
      blackScore_eq_formula v₂ (by linarith) (by linarith)]
    have hd : (v₁ - 12/100) / (1/2 - 12/100) < (v₂ - 12/100) / (1/2 - 12/100) :=
      (div_lt_div_iff_of_pos_right (by norm_num)).mpr (by linarith)
    linarith

/-- C6: a parsed query never has both color forms populated: whenever the
upper or lower garment color is set, the generic color is unset. -/
theorem parse_color_forms_exclusive (t : String)
    (h : (parseQuery t).upper_color ≠ none ∨ (parseQuery t).lower_color ≠ none) :
    (parseQuery t).color = none :=
  mergedColor_exclusive _ _ _ h

unseal Rat.add Rat.mul Rat.inv Rat.sub Rat.ofScientific in
/-- Witness for C6 at a concrete query that assigns an upper-garment
color. -/
theorem parse_color_forms_exclusive_witness :
    (parseQuery qUpperRed).upper_color = some ("red") ∧
    (parseQuery qUpperRed).color = none :=
  ⟨by decide, parse_color_forms_exclusive qUpperRed (Or.inl (by decide))⟩

unseal Rat.add Rat.mul Rat.inv Rat.sub Rat.ofScientific in
/-- C5 counterexample: the source detects colors on the full normalized
text with the plate still present.  On `qC5` the plate's four tokens keep
the color token more than three tokens away from the garment keyword, so
the code leaves the upper color unset and stores a generic color, while
the spec-mandated plate-stripped detection (`parseQueryPlateStripped`)
assigns the upper color. -/
theorem color_detection_plate_counterexample :
    (parseQuery qC5).plate = some ("А123ВС77") ∧
    (parseQuery qC5).upper_color = none ∧
    (parseQuery qC5).color = some ("red") ∧
    (parseQueryPlateStripped qC5).upper_color = some ("red") ∧
    (parseQueryPlateStripped qC5).color = none ∧
    parseQuery qC5 ≠ parseQueryPlateStripped qC5 := by decide

/-- C5 amended: color detection (both the tokens tested against the color
table and the token indices used for color-to-region assignment) operates
on the full normalized text with the plate still present: the three color
fields of the parse are exactly those computed over `normalizeChars`,
before and independent of plate extraction; only `cleaned_text` sees the
plate-stripped text. -/
theorem color_detection_on_unstripped (t : String) :
    (parseQuery t).upper_color =
      (splitColorsByClothes (detectColorsWithTokens (normalizeChars t.data)).1
        (detectColorsWithTokens (normalizeChars t.data)).2
        (detectType (normalizeChars t.data))).1 ∧
    (parseQuery t).lower_color =
      (splitColorsByClothes (detectColorsWithTokens (normalizeChars t.data)).1
        (detectColorsWithTokens (normalizeChars t.data)).2
        (detectType (normalizeChars t.data))).2.1 ∧
    (parseQuery t).color =
      (if (splitColorsByClothes (detectColorsWithTokens (normalizeChars t.data)).1
            (detectColorsWithTokens (normalizeChars t.data)).2
            (detectType (normalizeChars t.data))).1.isSome ||
          (splitColorsByClothes (detectColorsWithTokens (normalizeChars t.data)).1
            (detectColorsWithTokens (normalizeChars t.data)).2
            (detectType (normalizeChars t.data))).2.1.isSome
       then none
       else (splitColorsByClothes (detectColorsWithTokens (normalizeChars t.data)).1
              (detectColorsWithTokens (normalizeChars t.data)).2
              (detectType (normalizeChars t.data))).2.2) ∧
    (parseQuery t).cleaned_text =
      String.mk (stripWsList (extractPlate (normalizeChars t.data)).2) :=
  ⟨rfl, rfl, rfl, rfl⟩

/-- C8: cosine similarity raises a length-mismatch error if and only if the
two vectors have different lengths; for equal lengths it returns 0 when
either accumulated norm is zero and otherwise the dot product divided by
the square root of the norm product; similarity of a non-zero vector with
itself is 1 and with its negation is −1. -/
theorem cosine_similarity_contract (a b : List ℚ) :
    ((∃ e, cosineSim a b = Except.error e) ↔ a.length ≠ b.length) ∧
    (a.length = b.length →
      (((a.zip b).map (fun q => q.1 * q.1)).sum = 0 ∨
        ((a.zip b).map (fun q => q.2 * q.2)).sum = 0) →
      cosineSim a b = Except.ok 0) ∧
    (a.length = b.length →
      ((a.zip b).map (fun q => q.1 * q.1)).sum ≠ 0 →
      ((a.zip b).map (fun q => q.2 * q.2)).sum ≠ 0 →
      cosineSim a b = Except.ok (((a.zip b).map (fun q => q.1 * q.2)).sum /
        ratSqrt (((a.zip b).map (fun q => q.1 * q.1)).sum *
          ((a.zip b).map (fun q => q.2 * q.2)).sum))) ∧
    ((∃ x ∈ a, x ≠ 0) → cosineSim a a = Except.ok 1) ∧
    ((∃ x ∈ a, x ≠ 0) →
      cosineSim a (a.map (fun x => -x)) = Except.ok (-1)) := by
  refine ⟨cosineSim_error_iff a b, fun hl hz => ?_, fun hl h1 h2 => ?_,
    fun hne => cosineSim_self hne, fun hne => cosineSim_neg hne⟩
  · unfold cosineSim
    rw [if_neg (by simp [hl])]
    dsimp only
    rw [if_pos hz]
  · unfold cosineSim
    rw [if_neg (by simp [hl])]
    dsimp only
    rw [if_neg (not_or.mpr ⟨h1, h2⟩)]

unseal Rat.add Rat.mul Rat.inv Rat.sub Rat.ofScientific in
/-- Witness for C8 at concrete vectors. -/
theorem cosine_similarity_contract_witness :
    cosineSim [3, 4] [3, 4] = Except.ok 1 ∧
    cosineSim [3, 4] [-3, -4] = Except.ok (-1) ∧
    (∃ e, cosineSim [1] [1, 2] = Except.error e) := by
  refine ⟨(cosine_similarity_contract [3, 4] [3, 4]).2.2.2.1 ?_, ?_, ?_⟩
  · exact ⟨3, by decide, by decide⟩
  · have hneg := (cosine_similarity_contract [3, 4] [3, 4]).2.2.2.2
      ⟨3, by decide, by decide⟩
    simpa using hneg
  · exact (cosine_similarity_contract [1] [1, 2]).1.mpr (by decide)

theorem sortStable_final_sorted (l : List SearchHit) :
    (sortStable leFinalDesc l).Pairwise
      (fun a b => b.final_score ≤ a.final_score) :=
  (sortStable_pairwise leFinalDesc leFinalDesc_total leFinalDesc_trans l).imp
    (fun hab => by simpa [leFinalDesc] using hab)

/-- C3: search returns an empty list (not an error) exactly when the
fetched candidate set of the taken path is empty; whenever at least one
scored candidate exists the result is non-empty. -/
theorem search_empty_iff_no_candidates (fuzz : String → String → ℚ)
    (text : String) (qv : List ℚ) (cm fm : ℚ)
    (fcs : List FrameCandidate) (ocs : List ObjectCandidate)
    (hf : ∀ c ∈ fcs, c.vector.length = qv.length)
    (ho : ∀ c ∈ ocs, c.vector.length = qv.length) :
    ∃ r, searchByText fuzz text qv cm fm fcs ocs = Except.ok r ∧
      (r = [] ↔ (match (parseQuery text).type with
                 | none => fcs = []
                 | some _ => ocs = [])) := by
  cases hty : (parseQuery text).type with
  | none =>
    obtain ⟨hits, hok, hl⟩ := scoreFrames_ok hf
    refine ⟨_, searchByText_frames hty hok, ?_⟩
    rw [searchFromHits_eq_nil_iff]
    dsimp only
    constructor
    · intro hh
      rw [hh] at hl
      exact List.length_eq_zero.mp hl.symm
    · intro hh
      rw [hh] at hl
      exact List.length_eq_zero.mp hl
  | some ty =>
    obtain ⟨hits, hok, hl⟩ := @scoreObjects_ok fuzz (parseQuery text) qv ocs ho
    refine ⟨_, searchByText_objects hty hok, ?_⟩
    rw [searchFromHits_eq_nil_iff]
    dsimp only
    constructor
    · intro hh
      rw [hh] at hl
      exact List.length_eq_zero.mp hl.symm
    · intro hh
      rw [hh] at hl
      exact List.length_eq_zero.mp hl

unseal Rat.add Rat.mul Rat.inv Rat.sub Rat.ofScientific in
/-- Witness for C3 at one concrete candidate list and the empty list. -/
theorem search_empty_iff_no_candidates_witness :
    ∃ r, searchByText fuzzZero qPlain [1] (3/10) (3/10) [frameCandPos] [] =
        Except.ok r ∧
      (r = [] ↔ (match (parseQuery qPlain).type with
                 | none => [frameCandPos] = ([] : List FrameCandidate)
                 | some _ => ([] : List ObjectCandidate) = [])) :=
  search_empty_iff_no_candidates fuzzZero qPlain [1] (3/10) (3/10)
    [frameCandPos] [] (by decide) (by decide)

/-- C2: when no hit passes the filter at the caller-supplied
finalMin = 0.30 but at least one passes at finalMin = 0.10, the search
returns the relaxed non-empty filtered set of the first succeeding
threshold (0.20, then 0.10) sorted by final score descending, with the
clip minimum and the color/plate presence gates held fixed at every
relaxation step. -/
theorem adaptive_relaxation_returns_nonempty (hits : List SearchHit)
    (qc qp : Bool) (cm : ℚ)
    (h30 : filterHits hits qc qp cm (3/10) = [])
    (h10 : filterHits hits qc qp cm (1/10) ≠ []) :
    searchFromHits hits qc qp cm (3/10) =
      (if filterHits hits qc qp cm (2/10) = []
       then sortStable leFinalDesc (filterHits hits qc qp cm (1/10))
       else sortStable leFinalDesc (filterHits hits qc qp cm (2/10))) ∧
    searchFromHits hits qc qp cm (3/10) ≠ [] ∧
    (searchFromHits hits qc qp cm (3/10)).Pairwise
      (fun a b => b.final_score ≤ a.final_score) := by
  have hfuel : (((3 : ℚ)/10) * 10).floor.toNat + 2 = 5 := by
    norm_num
    rfl
  have hstep1 : (3 : ℚ)/10 - 1/10 = 2/10 := by norm_num
  have hstep2 : (2 : ℚ)/10 - 1/10 = 1/10 := by norm_num
  have hne10 : ¬(filterHits hits qc qp cm (1/10)).isEmpty = true := by
    intro hh
    exact h10 (List.isEmpty_iff.mp hh)
  have hmain : searchFromHits hits qc qp cm (3/10) =
      (if filterHits hits qc qp cm (2/10) = []
       then sortStable leFinalDesc (filterHits hits qc qp cm (1/10))
       else sortStable leFinalDesc (filterHits hits qc qp cm (2/10))) := by
    unfold searchFromHits
    dsimp only
    rw [h30, hfuel, hstep1]
    simp only [List.isEmpty_nil, if_true]
    by_cases h20 : filterHits hits qc qp cm (2/10) = []
    · rw [show (5 : Nat) = 4 + 1 from rfl, relaxLoop]
      rw [if_neg (by norm_num : ¬(2 : ℚ)/10 < 0)]
      rw [h20]
      simp only [List.isEmpty_nil, if_true]
      rw [hstep2]
      rw [show (4 : Nat) = 3 + 1 from rfl, relaxLoop]
      rw [if_neg (by norm_num : ¬(1 : ℚ)/10 < 0)]
      rw [if_neg hne10]
    · rw [show (5 : Nat) = 4 + 1 from rfl, relaxLoop]
      rw [if_neg (by norm_num : ¬(2 : ℚ)/10 < 0)]
      rw [if_neg (fun hh => h20 (List.isEmpty_iff.mp hh))]
      rw [if_neg h20]
  refine ⟨hmain, ?_, ?_⟩
  · rw [hmain]
    split_ifs with h20
    · intro hh
      exact h10 ((sortStable_eq_nil_iff _ _).mp hh)
    · intro hh
      exact h20 ((sortStable_eq_nil_iff _ _).mp hh)
  · rw [hmain]
    split_ifs with h20
    · exact sortStable_final_sorted _
    · exact sortStable_final_sorted _

unseal Rat.add Rat.mul Rat.inv Rat.sub Rat.ofScientific in
/-- Witness for C2 at a concrete hit clearing 0.10 but not 0.30. -/
theorem adaptive_relaxation_returns_nonempty_witness :
    filterHits [hitC2] false false 0 (3/10) = [] ∧
    filterHits [hitC2] false false 0 (1/10) ≠ [] ∧
    searchFromHits [hitC2] false false 0 (3/10) ≠ [] :=
  ⟨by decide, by decide,
   (adaptive_relaxation_returns_nonempty [hitC2] false false 0
     (by decide) (by decide)).2.1⟩

unseal Rat.add Rat.mul Rat.inv Rat.sub Rat.ofScientific in
/-- C1 counterexample: a search over a single frame candidate whose stored
vector is the negation of the query vector returns, through the top-5
fallback, a hit whose clip and final scores are −1, outside [0, 1]. -/
theorem search_scores_unit_interval_counterexample :
    searchByText fuzzZero qPlain [1] (3/10) (3/10) [frameCandNeg] [] =
      Except.ok [hitNeg] ∧
    hitNeg.clip_score < 0 ∧ hitNeg.final_score < 0 := by decide

/-- C1 amended: every hit returned by a search has color and plate scores
in [0, 1] and clip and final scores in [−1, 1] (the clip score is a cosine
and can be negative, and the top-5 fallback can return such hits), and the
final score equals the weighted combination of the other three with
weights determined solely by which of the color and plate scores are
non-zero. -/
theorem search_scores_bounded (fuzz : String → String → ℚ)
    (hfuzz : ∀ a b, 0 ≤ fuzz a b ∧ fuzz a b ≤ 100)
    (text : String) (qv : List ℚ) (cm fm : ℚ)
    (fcs : List FrameCandidate) (ocs : List ObjectCandidate)
    (r : List SearchHit)
    (hr : searchByText fuzz text qv cm fm fcs ocs = Except.ok r)
    (x : SearchHit) (hx : x ∈ r) :
    (0 ≤ x.color_score ∧ x.color_score ≤ 1) ∧
    (0 ≤ x.plate_score ∧ x.plate_score ≤ 1) ∧
    (-1 ≤ x.clip_score ∧ x.clip_score ≤ 1) ∧
    x.final_score = combineScores x.clip_score x.color_score x.plate_score ∧
    (-1 ≤ x.final_score ∧ x.final_score ≤ 1) := by
  unfold searchByText at hr
  dsimp only at hr
  cases hty : (parseQuery text).type with
  | none =>
    rw [hty] at hr
    dsimp only at hr
    cases hs : scoreFrames qv fcs with
    | error e => rw [hs] at hr; cases hr
    | ok hits =>
      rw [hs] at hr
      obtain rfl := Except.ok.inj hr
      have hmem := mem_hits_of_mem_searchFromHits hx
      obtain ⟨hcol, hpl, hclip, hfin⟩ := scoreFrames_mem hs x hmem
      have hb := combineScores_bounds x.clip_score x.color_score x.plate_score
        hclip.1 hclip.2 (by rw [hcol]) (by rw [hcol]; norm_num)
        (by rw [hpl]) (by rw [hpl]; norm_num)
      rw [← hfin] at hb
      exact ⟨⟨by rw [hcol], by rw [hcol]; norm_num⟩,
        ⟨by rw [hpl], by rw [hpl]; norm_num⟩, hclip, hfin, hb⟩
  | some ty =>
    rw [hty] at hr
    dsimp only at hr
    cases hs : scoreObjects fuzz (parseQuery text) qv ocs with
    | error e => rw [hs] at hr; cases hr
    | ok hits =>
      rw [hs] at hr
      obtain rfl := Except.ok.inj hr
      have hmem := mem_hits_of_mem_searchFromHits hx
      obtain ⟨hclip, ⟨c, hc, hcol, hpl⟩, hfin⟩ := scoreObjects_mem hs x hmem
      have hcolb := computeObjectColorScore_mem (parseQuery text) c
      have hplb := computePlateScore_mem fuzz hfuzz
        (parseQuery text).plate c.transport_plate
      rw [← hcol] at hcolb
      rw [← hpl] at hplb
      have hb := combineScores_bounds x.clip_score x.color_score x.plate_score
        hclip.1 hclip.2 hcolb.1 hcolb.2 hplb.1 hplb.2
      rw [← hfin] at hb
      exact ⟨hcolb, hplb, hclip, hfin, hb⟩

unseal Rat.add Rat.mul Rat.inv Rat.sub Rat.ofScientific in
/-- Witness for the amended C1 at a concrete search returning one hit. -/
theorem search_scores_bounded_witness :
    (0 ≤ hitPos.color_score ∧ hitPos.color_score ≤ 1) ∧
    (0 ≤ hitPos.plate_score ∧ hitPos.plate_score ≤ 1) ∧
    (-1 ≤ hitPos.clip_score ∧ hitPos.clip_score ≤ 1) ∧
    hitPos.final_score =
      combineScores hitPos.clip_score hitPos.color_score hitPos.plate_score ∧
    (-1 ≤ hitPos.final_score ∧ hitPos.final_score ≤ 1) :=
  search_scores_bounded fuzzZero
    (fun _ _ => ⟨le_refl 0, by norm_num [fuzzZero]⟩) qPlain [1] (3/10) (3/10)
    [frameCandPos] [] [hitPos] (by decide) hitPos (by decide)

/-- C10: a PERSON-typed query whose parse has only the generic color set
(upper and lower garment colors unset) gives every PERSON candidate a
color score of exactly 0, so the presence gate rejects every hit at every
relaxation level and the search returns the top-5-by-clip fallback (or an
empty list when there are no candidates at all). -/
theorem person_generic_color_dead_end (fuzz : String → String → ℚ)
    (text : String) (qv : List ℚ) (cm fm : ℚ)
    (fcs : List FrameCandidate) (ocs : List ObjectCandidate) (c : String)
    (hty : (parseQuery text).type = some QueryObjectType.PERSON)
    (hcol : (parseQuery text).color = some c)
    (hper : ∀ cand ∈ ocs, cand.object_type = ObjectType.PERSON)
    (hlen : ∀ cand ∈ ocs, cand.vector.length = qv.length) :
    (∀ cand ∈ ocs, computeObjectColorScore (parseQuery text) cand = 0) ∧
    ∃ hits, scoreObjects fuzz (parseQuery text) qv ocs = Except.ok hits ∧
      searchByText fuzz text qv cm fm fcs ocs =
        Except.ok (if hits.isEmpty then []
                   else (sortStable leClipDesc hits).take 5) := by
  obtain ⟨hu, hl⟩ := mergedColor_some _ _ _ c hcol
  have hz : ∀ cand ∈ ocs, computeObjectColorScore (parseQuery text) cand = 0 :=
    fun cand hcand =>
      computeObjectColorScore_person_zero _ _ hu hl (hper cand hcand)
  obtain ⟨hits, hok, _⟩ := @scoreObjects_ok fuzz (parseQuery text) qv ocs hlen
  have hcolor0 : ∀ x ∈ hits, x.color_score = 0 := by
    intro x hx
    obtain ⟨_, ⟨d, hd, hcp, _⟩, _⟩ := scoreObjects_mem hok x hx
    rw [hcp]
    exact hz d hd
  have hqcr : ((parseQuery text).color.isSome ||
      (parseQuery text).upper_color.isSome ||
      (parseQuery text).lower_color.isSome) = true := by
    simp [hcol]
  have hempty : ∀ cur : ℚ,
      filterHits hits ((parseQuery text).color.isSome ||
        (parseQuery text).upper_color.isSome ||
        (parseQuery text).lower_color.isSome)
        (parseQuery text).plate.isSome cm cur = [] := by
    intro cur
    rw [hqcr]
    exact filterHits_empty_of_color_zero hcolor0
  refine ⟨hz, hits, hok, ?_⟩
  rw [searchByText_objects hty hok]
  rw [searchFromHits_fallback hempty]

unseal Rat.add Rat.mul Rat.inv Rat.sub Rat.ofScientific in
/-- Witness for C10 at a concrete person query and one PERSON candidate. -/
theorem person_generic_color_dead_end_witness :
    (∀ cand ∈ [personCand],
      computeObjectColorScore (parseQuery qPersonRed) cand = 0) ∧
    ∃ hits, scoreObjects fuzzZero (parseQuery qPersonRed) [1] [personCand] =
        Except.ok hits ∧
      searchByText fuzzZero qPersonRed [1] (3/10) (3/10) [] [personCand] =
        Except.ok (if hits.isEmpty then []
                   else (sortStable leClipDesc hits).take 5) :=
  person_generic_color_dead_end fuzzZero qPersonRed [1] (3/10) (3/10)
    [] [personCand] ("red") (by decide) (by decide) (by decide) (by decide)

/-- Witness for C4 at concrete score triples, one per weight row. -/
theorem combiner_weight_table_witness :
    combineScores (1/2) 0 0 = 1/2 ∧
    combineScores (1/2) (1/4) 0 = 6/10 * (1/2) + 4/10 * (1/4) ∧
    combineScores (1/2) 0 (1/4) = 4/10 * (1/2) + 6/10 * (1/4) ∧
    combineScores (1/2) (1/4) (1/4) =
      4/10 * (1/2) + 2/10 * (1/4) + 4/10 * (1/4) :=
  ⟨(combiner_weight_table (1/2) 0 0).1 (by norm_num) (by norm_num),
   (combiner_weight_table (1/2) (1/4) 0).2.1 (by norm_num) (by norm_num),
   (combiner_weight_table (1/2) 0 (1/4)).2.2.1 (by norm_num) (by norm_num),
   (combiner_weight_table (1/2) (1/4) (1/4)).2.2.2.1 (by norm_num) (by norm_num)⟩

/-- Witness for C7 at concrete queries: a transport hit, a person hit, and
an equal-count tie. -/
theorem type_detection_tie_rule_witness :
    detectType (("машина").data) = some QueryObjectType.TRANSPORT ∧
    detectType (("человек").data) = some QueryObjectType.PERSON ∧
    detectType (("человек машина").data) = none :=
  ⟨(type_detection_tie_rule (("машина").data)).2.2 (by decide),
   (type_detection_tie_rule (("человек").data)).2.1 (by decide),
   (type_detection_tie_rule (("человек машина").data)).1.mpr (by decide)⟩

/-- Witness for C9 at concrete value-channel inputs. -/
theorem black_score_value_channel_witness :
    computeColorScore ("black") 100 (1/2) (5/100) = 1 ∧
    computeColorScore ("black") 100 (1/2) (6/10) = 0 ∧
    computeColorScore ("black") 100 (1/2) (45/100) <
      computeColorScore ("black") 100 (1/2) (2/10) :=
  ⟨(black_score_value_channel 100 (1/2) (5/100)).2.1 (by norm_num),
   (black_score_value_channel 100 (1/2) (6/10)).2.2.1 (by norm_num),
   (black_score_value_channel 100 (1/2) 0).2.2.2.2 (2/10) (45/100)
     (by norm_num) (by norm_num) (by norm_num)⟩
